import Mathlib

/-!
Shallow embedding of the two reporting scripts in
aws-reporting-scripts (ssm_agent_audit.py and ssm_patching_audit.py).

AWS API responses are Python dictionaries, lists, strings, numbers and
booleans; we embed them as the inductive type Val. Dictionary and list
access is fallible in Python (KeyError, IndexError, TypeError) and the
generator-exhaustion of next is StopIteration; uncaught exceptions are
modelled by the Except monad over PyErr. Each AWS client is a record of
total response functions, and every extractor additionally reports how
many provider calls it issued, so that short-circuiting on empty input
can be stated exactly.
-/

set_option maxHeartbeats 1000000

namespace AwsReports

/-- Python-style dynamic values appearing in AWS API requests and
responses: strings, integers, booleans, lists, and string-keyed
dictionaries (kept as association lists in key order). -/
inductive Val where
  | s : String → Val
  | n : Int → Val
  | b : Bool → Val
  | arr : List Val → Val
  | obj : List (String × Val) → Val

/-- The Python exceptions that the scripts can raise or catch. -/
inductive PyErr where
  | keyError
  | indexError
  | typeError
  | stopIteration


/-- Total dictionary lookup, used to state properties about records. -/
def Val.get? : Val → String → Option Val
  | .obj kvs, k => (kvs.find? (fun p => p.1 == k)).map (fun p => p.2)
  | _, _ => none

/-- Python subscript d[k] on a dictionary: KeyError when the key is
absent, TypeError when the value is not a dictionary. -/
def Val.getKey : Val → String → Except PyErr Val
  | .obj kvs, k =>
    match kvs.find? (fun p => p.1 == k) with
    | some p => .ok p.2
    | none => .error .keyError
  | _, _ => .error .typeError

/-- Python subscript l[i] on a list: IndexError when out of range,
TypeError when the value is not a list. -/
def Val.index : Val → Nat → Except PyErr Val
  | .arr l, i =>
    match l.get? i with
    | some v => .ok v
    | none => .error .indexError
  | _, _ => .error .typeError

/-- Iterating a value as a list; TypeError when it is not a list. -/
def Val.asList : Val → Except PyErr (List Val)
  | .arr l => .ok l
  | _ => .error .typeError

/-- Python truthiness for the value shapes that occur in the scripts. -/
def Val.truthy : Val → Bool
  | .s str => !str.isEmpty
  | .n i => i != 0
  | .b bv => bv
  | .arr l => !l.isEmpty
  | .obj l => !l.isEmpty

/-- Python equality of a dynamic value against a string literal: true
exactly for an equal string, false for every other value. -/
def Val.eqStr : Val → String → Bool
  | .s a, t => a == t
  | _, _ => false

/-- The expression next(item for item in items if item subscripted at
Key equals k): raises StopIteration when no item matches, and lets a
KeyError or TypeError from the subscript escape, as Python does. -/
def findByKey : List Val → String → Except PyErr Val
  | [], _ => .error .stopIteration
  | item :: rest, k => do
    let kv ← item.getKey "Key"
    if kv.eqStr k then pure item else findByKey rest k

/-- Collapse a list of Python strings; TypeError on a non-string
element, as the string join method raises in Python. -/
def asStrList : List Val → Except PyErr (List String)
  | [] => .ok []
  | .s str :: rest => (asStrList rest).map (fun ss => str :: ss)
  | _ :: _ => .error .typeError

/-- The Python expression joining an iterable with a comma separator:
defined on lists of strings and on strings (joining the characters);
TypeError otherwise. -/
def joinComma (v : Val) : Except PyErr Val :=
  match v with
  | .arr l => (asStrList l).map (fun ss => .s (String.intercalate "," ss))
  | .s str => .ok (.s (String.intercalate "," (str.toList.map String.singleton)))
  | _ => .error .typeError

/-- A try block catching only KeyError and substituting the empty
string, as in except KeyError, pass. -/
def catchK (e : Except PyErr Val) : Except PyErr Val :=
  match e with
  | .ok v => .ok v
  | .error .keyError => .ok (.s "")
  | .error er => .error er

/-- A try block catching only IndexError and substituting the empty
string. -/
def catchI (e : Except PyErr Val) : Except PyErr Val :=
  match e with
  | .ok v => .ok v
  | .error .indexError => .ok (.s "")
  | .error er => .error er

/-- A try block catching KeyError and IndexError and substituting the
empty string, as in except KeyError or IndexError, pass. -/
def catchKI (e : Except PyErr Val) : Except PyErr Val :=
  match e with
  | .ok v => .ok v
  | .error .keyError => .ok (.s "")
  | .error .indexError => .ok (.s "")
  | .error er => .error er

/-- The SSM client methods used by ssm_patching_audit.py, as total
response functions (arguments mirror the keyword arguments passed at
each call site). -/
structure SSMClient where
  get_maintenance_window : Val → Val
  describe_maintenance_window_tasks : Val → Nat → Val
  get_maintenance_window_task : Val → Val → Val
  describe_maintenance_window_targets : Val → Val → Val
  get_patch_baseline_for_patch_group : Val → Val
  get_patch_baseline : Val → Val

/-- Result record of get_maint_window_info. -/
structure MWInfo where
  name : Val
  sched : Val
  time_zone : Val


/-- Result record of get_task_info. -/
structure TaskInfo where
  target_id : Val
  task : Val
  operation : Val


/-- Result record of get_baseline_info. -/
structure BaselineInfo where
  name : Val
  operating_system : Val
  filter_msrc_sev : Val
  filter_class : Val
  delay : Val


/-- ssm_patching_audit.get_maint_window_info: reads Name and Schedule
unguarded, ScheduleTimezone behind except KeyError. The second
component counts provider calls issued. -/
def get_maint_window_info (c : SSMClient) (wid : Val) :
    Except PyErr (MWInfo × Nat) := do
  let mw := c.get_maintenance_window wid
  let name ← mw.getKey "Name"
  let sched ← mw.getKey "Schedule"
  let tz ← catchK (mw.getKey "ScheduleTimezone")
  pure ({name := name, sched := sched, time_zone := tz}, 1)

/-- ssm_patching_audit.get_maint_window_task_1: the first WindowTaskId
of the task list, with only IndexError caught (empty task list). -/
def get_maint_window_task_1 (c : SSMClient) (wid : Val) :
    Except PyErr (Val × Nat) := do
  let task_list := c.describe_maintenance_window_tasks wid 10
  let tid ← catchI (do (← (← task_list.getKey "Tasks").index 0).getKey "WindowTaskId")
  pure (tid, 1)

/-- ssm_patching_audit.get_task_info: on a truthy task id, fetches the
task and reads the WindowTargetIds target and TaskArn unguarded, with
only the nested Operation parameter behind except KeyError or
IndexError; on a falsy task id returns all-empty defaults and issues no
provider call. -/
def get_task_info (c : SSMClient) (wid : Val) (task_id : Val) :
    Except PyErr (TaskInfo × Nat) :=
  if task_id.truthy then do
    let mwt := c.get_maintenance_window_task wid task_id
    let targets ← (← mwt.getKey "Targets").asList
    let found ← findByKey targets "WindowTargetIds"
    let target_id ← (← found.getKey "Values").index 0
    let task ← mwt.getKey "TaskArn"
    let operation ← catchKI (do
      (← (← (← (← mwt.getKey "TaskInvocationParameters").getKey
        "RunCommand").getKey "Parameters").getKey "Operation").index 0)
    pure ({target_id := target_id, task := task, operation := operation}, 1)
  else
    pure ({target_id := .s "", task := .s "", operation := .s ""}, 0)

/-- ssm_patching_audit.get_target_patch_tag: on a truthy target id,
searches the first returned target for a tag:Patch Group entry, with
KeyError and IndexError caught (empty target list, missing keys) but
StopIteration not; on a falsy target id returns the empty string and
issues no provider call. -/
def get_target_patch_tag (c : SSMClient) (wid : Val) (target_id : Val) :
    Except PyErr (Val × Nat) :=
  if target_id.truthy then
    let filters := Val.obj [("Key", .s "WindowTargetId"), ("Values", .arr [target_id])]
    let target_list := c.describe_maintenance_window_targets wid (.arr [filters])
    match catchKI (do
      let tl ← (← (← (← target_list.getKey "Targets").index 0).getKey "Targets").asList
      (← (← findByKey tl "tag:Patch Group").getKey "Values").index 0) with
    | .ok v => .ok (v, 1)
    | .error e => .error e
  else .ok (.s "", 0)

/-- ssm_patching_audit.get_baseline_id: on a truthy patch tag, reads
BaselineId unguarded; on a falsy patch tag returns the empty string and
issues no provider call. -/
def get_baseline_id (c : SSMClient) (patch_tag : Val) :
    Except PyErr (Val × Nat) :=
  if patch_tag.truthy then do
    let baseline := c.get_patch_baseline_for_patch_group patch_tag
    let bid ← baseline.getKey "BaselineId"
    pure (bid, 1)
  else pure (.s "", 0)

/-- ssm_patching_audit.get_baseline_info: on a truthy baseline id,
reads every field unguarded (Name, OperatingSystem, the first patch
rule of the approval rules, the MSRC_SEVERITY and CLASSIFICATION filter
entries joined with commas, and ApproveAfterDays); on a falsy baseline
id returns all-empty defaults and issues no provider call. -/
def get_baseline_info (c : SSMClient) (baseline_id : Val) :
    Except PyErr (BaselineInfo × Nat) :=
  if baseline_id.truthy then do
    let baseline := c.get_patch_baseline baseline_id
    let name ← baseline.getKey "Name"
    let operating_system ← baseline.getKey "OperatingSystem"
    let patch_filters ← (← (← (← (← baseline.getKey "ApprovalRules").getKey
      "PatchRules").index 0).getKey "PatchFilterGroup").getKey "PatchFilters"
    let pfl ← patch_filters.asList
    let filter_msrc_sev ← joinComma (← (← findByKey pfl "MSRC_SEVERITY").getKey "Values")
    let filter_class ← joinComma (← (← findByKey pfl "CLASSIFICATION").getKey "Values")
    let delay ← (← (← (← baseline.getKey "ApprovalRules").getKey
      "PatchRules").index 0).getKey "ApproveAfterDays"
    pure ({name := name, operating_system := operating_system,
           filter_msrc_sev := filter_msrc_sev, filter_class := filter_class,
           delay := delay}, 1)
  else
    pure ({name := .s "", operating_system := .s "", filter_msrc_sev := .s "",
           filter_class := .s "", delay := .s ""}, 0)

/-- The SSM client method used by ssm_agent_audit.py, as a total
response function of the instance id placed in the
InstanceInformationFilterList argument. -/
structure EC2SSMClient where
  describe_instance_information : Val → Val

/-- Result record of get_instance_ssm_info. -/
structure SSMInfo where
  ping_status : Val
  agent_version : Val
  platform_type : Val
  platform_name : Val
  platform_version : Val

/-- The loop body of get_instance_name: walk the tags, overwriting the
accumulator with the Value of every tag whose Key is Name. A KeyError
raised inside the loop is caught by the enclosing try and yields the
accumulator as it stands; any other error propagates. -/
def name_loop : List Val → Val → Except PyErr Val
  | [], acc => .ok acc
  | tag :: rest, acc =>
    match tag.getKey "Key" with
    | .error .keyError => .ok acc
    | .error e => .error e
    | .ok kv =>
      if kv.eqStr "Name" then
        match tag.getKey "Value" with
        | .error .keyError => .ok acc
        | .error e => .error e
        | .ok v => name_loop rest v
      else name_loop rest acc

/-- ssm_agent_audit.get_instance_name: the Value of the last Name tag,
with the whole loop wrapped in except KeyError (covering a record with
no Tags key at all, and missing Key or Value inside a tag). -/
def get_instance_name (inst : Val) : Except PyErr Val :=
  match inst.getKey "Tags" with
  | .error .keyError => .ok (.s "")
  | .error e => .error e
  | .ok tags =>
    match tags.asList with
    | .error e => .error e
    | .ok l => name_loop l (.s "")

/-- ssm_agent_audit.get_instance_platform: the Platform field behind
except KeyError. -/
def get_instance_platform (inst : Val) : Except PyErr Val :=
  catchK (inst.getKey "Platform")

/-- ssm_agent_audit.get_instance_ssm_info: one
describe_instance_information call; when the returned
InstanceInformationList is non-empty, its first entry supplies the five
fields (unguarded lookups), otherwise all five default to the empty
string. -/
def get_instance_ssm_info (c : EC2SSMClient) (instance_id : Val) :
    Except PyErr SSMInfo := do
  let resp := c.describe_instance_information instance_id
  let info_list ← (← resp.getKey "InstanceInformationList").asList
  match info_list with
  | [] => pure {ping_status := .s "", agent_version := .s "",
                platform_type := .s "", platform_name := .s "",
                platform_version := .s ""}
  | first :: _ => do
    let ping ← first.getKey "PingStatus"
    let ver ← first.getKey "AgentVersion"
    let ptype ← first.getKey "PlatformType"
    let pname ← first.getKey "PlatformName"
    let pver ← first.getKey "PlatformVersion"
    pure {ping_status := ping, agent_version := ver, platform_type := ptype,
          platform_name := pname, platform_version := pver}

/-- Sequential effectful map over a list, short-circuiting on the first
error: the shape of every for loop in both main functions. -/
def mapE : List α → (α → Except PyErr β) → Except PyErr (List β)
  | [], _ => .ok []
  | a :: rest, f => do
    let bv ← f a
    let bs ← mapE rest f
    pure (bv :: bs)

/-- The fixed header row written by ssm_agent_audit.main. -/
def agent_header : List Val :=
  [.s "Account", .s "Region", .s "InstanceID", .s "Name", .s "EC2Platform",
   .s "SSMPingStatus", .s "SSMAgentVersion", .s "SSMPlatformType",
   .s "SSMPlatformName", .s "SSMPlatformVersion"]

/-- The instance-state filter ssm_agent_audit.main passes to the
describe_instances listing (running, stopping and stopped states). -/
def instance_state_filter : Val :=
  .obj [("Name", .s "instance-state-name"),
        ("Values", .arr [.s "running", .s "stopping", .s "stopped"])]

/-- One row of ssm_agent_audit.main for one instance record, fields in
the order they are passed to writerow. -/
def instance_row (account region : String) (c : EC2SSMClient) (inst : Val) :
    Except PyErr (List Val) := do
  let iid0 ← inst.getKey "InstanceId"
  let info ← get_instance_ssm_info c iid0
  let iid ← inst.getKey "InstanceId"
  let name ← get_instance_name inst
  let plat ← get_instance_platform inst
  pure [.s account, .s region, iid, name, plat, info.ping_status,
        info.agent_version, info.platform_type, info.platform_name,
        info.platform_version]

/-- The inner loop body of ssm_agent_audit.main for one reservation
yielded by the paginated describe_instances listing: one row per
instance inside the reservation. -/
def reservation_rows (account region : String) (c : EC2SSMClient)
    (res : Val) : Except PyErr (List (List Val)) := do
  let instances ← (← res.getKey "Instances").asList
  mapE instances (instance_row account region c)

/-- The per-region reservation loop of ssm_agent_audit.main, flattened
to one list of instance rows. -/
def region_rows_agent (account region : String) (c : EC2SSMClient)
    (reservations : List Val) : Except PyErr (List (List Val)) := do
  let rowss ← mapE reservations (reservation_rows account region c)
  pure rowss.flatten

/-- ssm_agent_audit.main as a function of the resolved region list, the
per-region instance listing (a function of the Filters argument the
script passes) and the per-region SSM client: the header row followed
by one row per instance, in iteration order. -/
def agent_report (account : String) (regions : List String)
    (ec2 : String → Val → List Val) (ssmc : String → EC2SSMClient) :
    Except PyErr (List (List Val)) := do
  let rowss ← mapE regions (fun r =>
    region_rows_agent account r (ssmc r) (ec2 r (.arr [instance_state_filter])))
  pure (agent_header :: rowss.flatten)

/-- The fixed header row written by ssm_patching_audit.main. -/
def patching_header : List Val :=
  [.s "Account", .s "Region", .s "MW ID", .s "MW Name", .s "MW Schedule",
   .s "MW TZ", .s "Task 1 ID", .s "Patch Group", .s "Task", .s "Operation",
   .s "Baseline", .s "Baseline Name", .s "OS", .s "Patch Filter (MSRC Sev)",
   .s "Patch Filter (Class)", .s "Approval Delay"]

/-- The Enabled-equals-true filter ssm_patching_audit.main passes to the
describe_maintenance_windows listing. -/
def mw_enabled_filter : Val :=
  .obj [("Key", .s "Enabled"), ("Values", .arr [.s "true"])]

/-- The maintenance windows ssm_patching_audit.main iterates over in one
region: the paginated describe_maintenance_windows listing applied to
the Filters argument holding mw_enabled_filter. -/
def patching_windows_iterated (lw : String → Val → List Val) (r : String) :
    List Val :=
  lw r (.arr [mw_enabled_filter])

/-- One row of ssm_patching_audit.main for one maintenance window,
running the full extraction chain and recording the total number of
provider calls the chain issued; fields in writerow order. -/
def window_row (account region : String) (c : SSMClient) (mw : Val) :
    Except PyErr (List Val × Nat) := do
  let wid ← mw.getKey "WindowId"
  let (info, n1) ← get_maint_window_info c wid
  let (task_1_id, n2) ← get_maint_window_task_1 c wid
  let (ti, n3) ← get_task_info c wid task_1_id
  let (patch_tag, n4) ← get_target_patch_tag c wid ti.target_id
  let (baseline_id, n5) ← get_baseline_id c patch_tag
  let (bi, n6) ← get_baseline_info c baseline_id
  pure ([.s account, .s region, wid, info.name, info.sched, info.time_zone,
         task_1_id, patch_tag, ti.task, ti.operation, baseline_id, bi.name,
         bi.operating_system, bi.filter_msrc_sev, bi.filter_class, bi.delay],
        n1 + n2 + n3 + n4 + n5 + n6)

/-- The emitted fields of one patching row, dropping the call count of
the instrumented chain. -/
def window_row_only (account region : String) (c : SSMClient) (mw : Val) :
    Except PyErr (List Val) :=
  (window_row account region c mw).map (fun p => p.1)

/-- ssm_patching_audit.main as a function of the resolved region list,
the per-region window listing and the per-region SSM client: the header
row followed by one row per enabled maintenance window. -/
def patching_report (account : String) (regions : List String)
    (c : String → SSMClient) (lw : String → Val → List Val) :
    Except PyErr (List (List Val)) := do
  let rowss ← mapE regions (fun r =>
    mapE (patching_windows_iterated lw r) (window_row_only account r (c r)))
  pure (patching_header :: rowss.flatten)

/-- Modelled from the spec: helpers.get_region_list is imported by both
scripts but the helpers module is not in src. Per the spec it returns
the full list of regions published by the region-description API, which
is the published parameter here. -/
def get_region_list (published : List String) : List String := published

/-- Modelled from the spec: helpers.get_region is imported by both
scripts but the helpers module is not in src. Per the spec it validates
the supplied token against the published region list and falls back to
the configured default region when the token is invalid or absent (the
scripts pass a Python False default through, modelled as none). -/
def get_region (published : List String) (default_region : String)
    (token : Option String) : String :=
  match token with
  | some t => if t ∈ published then t else default_region
  | none => default_region

/-- The region dispatch at the top of both main functions: the exact
tokens all and ALL select the full published list, every other argument
is passed to single-region validation. -/
def resolve_region_list (published : List String) (default_region : String)
    (args_region : Option String) : List String :=
  if args_region = some "all" ∨ args_region = some "ALL" then
    get_region_list published
  else
    [get_region published default_region args_region]

/-- Modelled from the spec: helpers.get_items is imported by both
scripts but the helpers module is not in src. Per the spec it invokes
the operation, yields the items under the given key of each response,
and when the response carries a continuation token repeats with the
next response, terminating when no token is present. The provider is
modelled as the sequence of responses it would serve to the successive
calls, with NextToken as the continuation-token field. -/
def get_items (item_name : String) : List Val → List Val
  | [] => []
  | resp :: rest =>
    let items := match resp.get? item_name with
      | some (.arr l) => l
      | _ => []
    match resp.get? "NextToken" with
    | some _ => items ++ get_items item_name rest
    | none => items

/-- The Python str conversion for the scalar values that reach a CSV
row (container reprs never occur in a row). -/
def pyStr : Val → String
  | .s str => str
  | .n i => toString i
  | .b true => "True"
  | .b false => "False"
  | .arr _ => ""
  | .obj _ => ""

/-- One CSV field under the QUOTE_ALL policy of csv.writer: the
stringified value with every double quote doubled, wrapped in double
quotes. -/
def quoteAll (s : String) : String :=
  "\"" ++ s.replace "\"" "\"\"" ++ "\""

/-- One CSV line: every field stringified, quoted, and joined with the
comma delimiter. -/
def renderRow (fields : List Val) : String :=
  String.intercalate "," (fields.map (fun v => quoteAll (pyStr v)))

/-- The rendered CSV document, one line per row. -/
def renderReport (rows : List (List Val)) : List String :=
  rows.map renderRow

/-! Mock inputs used to instantiate the theorems: concrete clients built
from fixed response values. They are test fixtures, not part of the
embedding of the scripts. -/

/-- An inert placeholder response for client methods a scenario never
reaches. -/
def junkResp : Val := .obj []

/-- An SSM client serving one fixed response per method. -/
def constSSMClient (mwr tasksr taskr targetsr pgr blr : Val) : SSMClient where
  get_maintenance_window := fun _ => mwr
  describe_maintenance_window_tasks := fun _ _ => tasksr
  get_maintenance_window_task := fun _ _ => taskr
  describe_maintenance_window_targets := fun _ _ => targetsr
  get_patch_baseline_for_patch_group := fun _ => pgr
  get_patch_baseline := fun _ => blr

/-- A client for a well-formed maintenance window whose task list is
empty. -/
def mkEmptyTasksClient (nm sc tz : Val) : SSMClient :=
  constSSMClient
    (.obj [("Name", nm), ("Schedule", sc), ("ScheduleTimezone", tz)])
    (.obj [("Tasks", .arr [])])
    junkResp junkResp junkResp junkResp

/-- A realistic Linux patch baseline response: its first patch rule has
a CLASSIFICATION filter but no MSRC_SEVERITY filter, which is the
normal shape for a non-Windows baseline. -/
def linux_baseline_resp : Val :=
  .obj [("Name", .s "linux-baseline"),
        ("OperatingSystem", .s "AMAZON_LINUX_2"),
        ("ApprovalRules", .obj [("PatchRules", .arr [
          .obj [("PatchFilterGroup", .obj [("PatchFilters", .arr [
                  .obj [("Key", .s "CLASSIFICATION"),
                        ("Values", .arr [.s "Security"])]])]),
                ("ApproveAfterDays", .n 7)]])])]

/-- A client whose get_patch_baseline serves the Linux baseline. -/
def linux_baseline_client : SSMClient :=
  constSSMClient junkResp junkResp junkResp junkResp junkResp
    linux_baseline_resp

/-- C1: for a maintenance window with an empty task list the per-window
pipeline emits the row with the task id, patch group, task, operation,
baseline id and every baseline field equal to the empty string and
raises no exception, issuing only the two calls that precede the task
lookup; and each downstream step, given the empty string as its
required input, returns its all-empty defaults with zero provider calls
for every client. -/
theorem empty_task_list_pipeline (c : SSMClient) (nm sc tz widv : Val)
    (account region : String) :
    window_row account region (mkEmptyTasksClient nm sc tz)
        (.obj [("WindowId", widv)])
      = .ok ([.s account, .s region, widv, nm, sc, tz, .s "", .s "", .s "",
              .s "", .s "", .s "", .s "", .s "", .s "", .s ""], 2)
  ∧ get_maint_window_task_1 (mkEmptyTasksClient nm sc tz) widv = .ok (.s "", 1)
  ∧ get_task_info c widv (.s "")
      = .ok ({target_id := .s "", task := .s "", operation := .s ""}, 0)
  ∧ get_target_patch_tag c widv (.s "") = .ok (.s "", 0)
  ∧ get_baseline_id c (.s "") = .ok (.s "", 0)
  ∧ get_baseline_info c (.s "")
      = .ok ({name := .s "", operating_system := .s "", filter_msrc_sev := .s "",
              filter_class := .s "", delay := .s ""}, 0) :=
  ⟨rfl, rfl, rfl, rfl, rfl, rfl⟩

/-- C2 counterexample: get_baseline_info is a field extractor, and on a
baseline response whose first patch rule lacks the optional
MSRC_SEVERITY filter entry (a normal Linux baseline) it raises
StopIteration instead of returning an empty-string default. -/
theorem baseline_filter_absence_raises :
    get_baseline_info linux_baseline_client (.s "pb-0a1b2c3d4e5f67890")
      = .error .stopIteration :=
  rfl

/-- A task response with a well-formed target and TaskArn but no
TaskInvocationParameters key at all. -/
def mkTaskClientNoParams (tgt arn : Val) : SSMClient :=
  constSSMClient junkResp junkResp
    (.obj [("Targets", .arr [.obj [("Key", .s "WindowTargetIds"),
                                   ("Values", .arr [tgt])]]),
           ("TaskArn", arn)])
    junkResp junkResp junkResp

/-- A maintenance window response without the optional ScheduleTimezone
key. -/
def mkNoTZClient (nm sc : Val) : SSMClient :=
  constSSMClient (.obj [("Name", nm), ("Schedule", sc)])
    junkResp junkResp junkResp junkResp junkResp

/-- A target listing whose Targets list is empty. -/
def mkEmptyTargetsClient : SSMClient :=
  constSSMClient junkResp junkResp junkResp
    (.obj [("Targets", .arr [])]) junkResp junkResp

/-- C2 amended: the extractor lookups that the code guards with a try
block do recover absence locally with the empty-string default: the
Operation invocation parameter in get_task_info, the ScheduleTimezone
field in get_maint_window_info, the patch-group tag when the returned
target list is empty, and the Platform field of an instance record; the
lookups left unguarded (all of get_baseline_info, shown by the
counterexample) raise instead. -/
theorem guarded_extractors_default_on_absence (tgt arn nm sc widv iid : Val) :
    get_task_info (mkTaskClientNoParams tgt arn) widv (.s "wt-1")
      = .ok ({target_id := tgt, task := arn, operation := .s ""}, 1)
  ∧ get_maint_window_info (mkNoTZClient nm sc) widv
      = .ok ({name := nm, sched := sc, time_zone := .s ""}, 1)
  ∧ get_target_patch_tag mkEmptyTargetsClient widv (.s "tg-1") = .ok (.s "", 1)
  ∧ get_instance_platform (.obj [("InstanceId", iid)]) = .ok (.s "") :=
  ⟨rfl, rfl, rfl, rfl⟩

/-- C8: an instance record carrying no Tags key at all makes
get_instance_name return the empty string without raising. -/
theorem no_tags_key_returns_empty (kvs : List (String × Val))
    (h : ∀ p ∈ kvs, p.1 ≠ "Tags") :
    get_instance_name (.obj kvs) = .ok (.s "") := by
  have hf : kvs.find? (fun p => p.1 == "Tags") = none := by
    rw [List.find?_eq_none]
    intro p hp
    simpa using h p hp
  simp [get_instance_name, Val.getKey, hf]

/-- C8 witness: a concrete record with only an InstanceId key. -/
theorem no_tags_key_returns_empty_witness :
    get_instance_name (.obj [("InstanceId", .s "i-0abc")]) = .ok (.s "") :=
  no_tags_key_returns_empty _ (by
    intro p hp
    rw [List.mem_singleton] at hp
    subst hp
    decide)

/-- A tag record as boto3 returns it, from a key-value pair. -/
def mkTag (p : String × String) : Val :=
  .obj [("Key", .s p.1), ("Value", .s p.2)]

/-- The tag loop of get_instance_name on well-formed tags is the left
fold that overwrites the accumulator at every Name key. -/
theorem name_loop_fold (ps : List (String × String)) (acc : Val) :
    name_loop (ps.map mkTag) acc
      = .ok (ps.foldl (fun a p => if p.1 = "Name" then Val.s p.2 else a) acc) := by
  induction ps generalizing acc with
  | nil => rfl
  | cons p rest ih =>
    by_cases h : p.1 = "Name" <;>
      simp [name_loop, mkTag, Val.getKey, Val.eqStr, h, ih]

/-- The overwriting fold keeps the value of the last matching element,
phrased through find? on the reversed list. -/
theorem foldl_overwrite_last (ps : List (String × String)) (acc : Val) :
    ps.foldl (fun a p => if p.1 = "Name" then Val.s p.2 else a) acc
      = (match ps.reverse.find? (fun p => p.1 == "Name") with
         | some q => Val.s q.2
         | none => acc) := by
  induction ps using List.reverseRecOn generalizing acc with
  | nil => rfl
  | append_singleton l p ih =>
    rw [List.foldl_append, List.reverse_append]
    by_cases hp : p.1 = "Name" <;> simp [hp, ih]

/-- C9: when the Tags list holds several tags with Key Name, the value
reported is that of the last such tag in list order (find? over the
reversed list picks exactly the last matching tag). -/
theorem multiple_name_tags_last_wins (inst : Val)
    (ps : List (String × String)) (q : String × String)
    (hTags : inst.getKey "Tags" = .ok (.arr (ps.map mkTag)))
    (_hcount : 2 ≤ (ps.filter (fun p => p.1 == "Name")).length)
    (hlast : ps.reverse.find? (fun p => p.1 == "Name") = some q) :
    get_instance_name inst = .ok (.s q.2) := by
  simp [get_instance_name, hTags, Val.asList, name_loop_fold,
        foldl_overwrite_last, hlast]

/-- C9 witness: two Name tags, the later value second wins. -/
theorem multiple_name_tags_last_wins_witness :
    get_instance_name
        (.obj [("Tags", .arr ([("Name", "first"), ("env", "prod"),
                               ("Name", "second")].map mkTag))])
      = .ok (.s "second") :=
  multiple_name_tags_last_wins _ [("Name", "first"), ("env", "prod"), ("Name", "second")]
    ("Name", "second") rfl (by decide) (by decide)

/-- C3: the region list iterated is the full published list for the all
sentinel, exactly the requested region when it is a valid single region
name, and exactly the configured default region when the request is
invalid or absent. -/
theorem region_resolution (published : List String) (dflt t : String) :
    resolve_region_list published dflt (some "all") = published
  ∧ resolve_region_list published dflt (some "ALL") = published
  ∧ (t ≠ "all" → t ≠ "ALL" → t ∈ published →
       resolve_region_list published dflt (some t) = [t])
  ∧ (t ≠ "all" → t ≠ "ALL" → t ∉ published →
       resolve_region_list published dflt (some t) = [dflt])
  ∧ resolve_region_list published dflt none = [dflt] := by
  refine ⟨?_, ?_, ?_, ?_, ?_⟩
  · simp [resolve_region_list, get_region_list]
  · simp [resolve_region_list, get_region_list]
  · intro h1 h2 h3
    simp [resolve_region_list, get_region, h1, h2, h3]
  · intro h1 h2 h3
    simp [resolve_region_list, get_region, h1, h2, h3]
  · simp [resolve_region_list, get_region]

/-- C3 witness: a published list of two regions, one valid request and
one invalid request resolved against it. -/
theorem region_resolution_witness :
    resolve_region_list ["us-east-1", "eu-west-1"] "us-east-1" (some "eu-west-1")
      = ["eu-west-1"]
  ∧ resolve_region_list ["us-east-1", "eu-west-1"] "us-east-1" (some "mars-north-1")
      = ["us-east-1"] :=
  ⟨(region_resolution ["us-east-1", "eu-west-1"] "us-east-1" "eu-west-1").2.2.1
      (by decide) (by decide) (by decide),
   (region_resolution ["us-east-1", "eu-west-1"] "us-east-1" "mars-north-1").2.2.2.1
      (by decide) (by decide) (by decide)⟩

/-- C7: exactly the two token forms all and ALL select the all-regions
branch of the dispatch; every other token, mixed-case forms such as All
included, and the absent case are passed to single-region validation. -/
theorem all_sentinel_exact_forms (published : List String) (dflt t : String) :
    resolve_region_list published dflt (some "all") = get_region_list published
  ∧ resolve_region_list published dflt (some "ALL") = get_region_list published
  ∧ (t ≠ "all" → t ≠ "ALL" →
       resolve_region_list published dflt (some t)
         = [get_region published dflt (some t)])
  ∧ resolve_region_list published dflt (some "All")
      = [get_region published dflt (some "All")]
  ∧ resolve_region_list published dflt none
      = [get_region published dflt none] := by
  refine ⟨?_, ?_, ?_, ?_, ?_⟩
  · simp [resolve_region_list]
  · simp [resolve_region_list]
  · intro h1 h2
    simp [resolve_region_list, h1, h2]
  · simp [resolve_region_list]
  · simp [resolve_region_list]

/-- C7 witness: the mixed-case token aLl is not a sentinel and goes to
single-region validation. -/
theorem all_sentinel_exact_forms_witness :
    resolve_region_list ["us-east-1"] "us-east-1" (some "aLl")
      = [get_region ["us-east-1"] "us-east-1" (some "aLl")] :=
  (all_sentinel_exact_forms ["us-east-1"] "us-east-1" "aLl").2.2.1
    (by decide) (by decide)

/-- A mocked response page that carries a continuation token. -/
def mkTokenPage (k : String) (items : List Val) : Val :=
  .obj [(k, .arr items), ("NextToken", .s "token-1")]

/-- A mocked response page without a continuation token. -/
def mkLastPage (k : String) (items : List Val) : Val :=
  .obj [(k, .arr items)]

/-- C4: over any sequence of token-carrying pages closed by a final
page without a token, the paginated lister yields the concatenation of
the items under the given key in page order; and it terminates exactly
at the first page without a token, never consuming the responses after
it. -/
theorem get_items_concatenates_pages (k : String) (hk : k ≠ "NextToken")
    (pss : List (List Val)) (lastItems rest : List Val) :
    get_items k (pss.map (mkTokenPage k) ++ [mkLastPage k lastItems])
      = pss.flatten ++ lastItems
  ∧ get_items k (mkLastPage k lastItems :: rest) = lastItems := by
  have hbeq : (k == "NextToken") = false := by simpa using hk
  constructor
  · induction pss with
    | nil => simp [get_items, mkLastPage, Val.get?, List.find?, hbeq]
    | cons p ps ih =>
      simp only [List.map_cons, List.cons_append, get_items, mkTokenPage,
                 Val.get?, List.find?, beq_self_eq_true, hbeq]
      simp only [List.flatten_cons, List.append_assoc]
      exact congrArg (p ++ ·) ih
  · simp [get_items, mkLastPage, Val.get?, List.find?, hbeq]

/-- C4 witness: three concrete pages, two with tokens, concatenated in
order, and early termination on a token-free first page. -/
theorem get_items_concatenates_pages_witness :
    get_items "Items" ([[Val.s "a"], [Val.s "b"]].map (mkTokenPage "Items")
        ++ [mkLastPage "Items" [Val.s "c"]])
      = [[Val.s "a"], [Val.s "b"]].flatten ++ [Val.s "c"]
  ∧ get_items "Items" (mkLastPage "Items" [Val.s "c"] :: [junkResp])
      = [Val.s "c"] :=
  get_items_concatenates_pages "Items" (by decide) [[Val.s "a"], [Val.s "b"]]
    [Val.s "c"] [junkResp]

/-- C10: the window listing request of the patching audit carries the
Enabled-equals-true filter, so under a provider that honours that
filter (every window it returns has Enabled true) a window with Enabled
false is never among the windows iterated, hence never yields a row. -/
theorem disabled_windows_never_listed :
    mw_enabled_filter
      = Val.obj [("Key", Val.s "Enabled"), ("Values", Val.arr [Val.s "true"])]
  ∧ ∀ (lw : String → Val → List Val) (r : String),
      (∀ w ∈ patching_windows_iterated lw r, w.get? "Enabled" = some (.b true)) →
      ∀ w : Val, w.get? "Enabled" = some (.b false) →
        w ∉ patching_windows_iterated lw r := by
  refine ⟨rfl, ?_⟩
  intro lw r hall w hw hmem
  have hk := hall w hmem
  rw [hw] at hk
  simp at hk

/-- C10 witness: a disabled window is not among the windows served by a
concrete filter-honouring provider. -/
theorem disabled_windows_never_listed_witness :
    Val.obj [("Enabled", Val.b false)]
      ∉ patching_windows_iterated (fun _ _ => []) "eu-west-1" :=
  disabled_windows_never_listed.2 (fun _ _ => []) "eu-west-1"
    (by intro w hw; simp [patching_windows_iterated] at hw)
    (Val.obj [("Enabled", Val.b false)]) rfl

/-- Binding an ok value in the Except monad applies the continuation. -/
theorem ok_bind {α β : Type} (a : α) (f : α → Except PyErr β) :
    (Except.ok a >>= f) = f a := rfl

/-- Collapsing a list of string values recovers the strings. -/
theorem asStrList_map_s (vs : List String) :
    asStrList (vs.map Val.s) = .ok vs := by
  induction vs with
  | nil => rfl
  | cons v rest ih => simp [asStrList, ih, Except.map]

/-- Comma-joining a list of string values yields the intercalated
string. -/
theorem joinComma_map_s (vs : List String) :
    joinComma (.arr (vs.map Val.s)) = .ok (.s (String.intercalate "," vs)) := by
  simp [joinComma, asStrList_map_s, Except.map]

/-- A baseline response whose first patch rule carries PRODUCT,
MSRC_SEVERITY and CLASSIFICATION filters with the given values, and a
second patch rule with different filters that the extractor must
ignore. -/
def mkBaselineResp (bname osv : Val) (ps vs cs : List String) (delayv : Val) : Val :=
  .obj [("Name", bname),
        ("OperatingSystem", osv),
        ("ApprovalRules", .obj [("PatchRules", .arr [
          .obj [("PatchFilterGroup", .obj [("PatchFilters", .arr [
                  .obj [("Key", .s "PRODUCT"), ("Values", .arr (ps.map .s))],
                  .obj [("Key", .s "MSRC_SEVERITY"), ("Values", .arr (vs.map .s))],
                  .obj [("Key", .s "CLASSIFICATION"), ("Values", .arr (cs.map .s))]])]),
                ("ApproveAfterDays", delayv)],
          .obj [("PatchFilterGroup", .obj [("PatchFilters", .arr [
                  .obj [("Key", .s "MSRC_SEVERITY"), ("Values", .arr [.s "Low"])],
                  .obj [("Key", .s "CLASSIFICATION"), ("Values", .arr [.s "Other"])]])]),
                ("ApproveAfterDays", .n 99)]])])]

/-- A client serving a coherent full chain: window details, one task,
its target, a patch-group tag on the target, a baseline id for the
group and the baseline of mkBaselineResp. -/
def mkFullChainClient (nm sc tz tidv tgtv arnv opv pgv bidv bname osv : Val)
    (ps vs cs : List String) (delayv : Val) : SSMClient :=
  constSSMClient
    (.obj [("Name", nm), ("Schedule", sc), ("ScheduleTimezone", tz)])
    (.obj [("Tasks", .arr [.obj [("WindowTaskId", tidv)]])])
    (.obj [("Targets", .arr [.obj [("Key", .s "WindowTargetIds"),
                                   ("Values", .arr [tgtv])]]),
           ("TaskArn", arnv),
           ("TaskInvocationParameters", .obj [("RunCommand",
             .obj [("Parameters", .obj [("Operation", .arr [opv])])])])])
    (.obj [("Targets", .arr [.obj [("Targets", .arr [
             .obj [("Key", .s "tag:Patch Group"), ("Values", .arr [pgv])]])]])])
    (.obj [("BaselineId", bidv)])
    (mkBaselineResp bname osv ps vs cs delayv)

/-- C5: through a full mocked chain, the emitted row carries in its
MSRC-severity filter field the comma-joined Values of the MSRC_SEVERITY
filter entry and in its classification filter field the comma-joined
Values of the CLASSIFICATION entry, both taken from the first patch
rule (the second rule of the mock is ignored), with every other field
in writerow order. -/
theorem full_chain_baseline_filters
    (nm sc tz tidv tgtv arnv opv pgv bidv bname osv delayv widv : Val)
    (ps vs cs : List String) (account region : String)
    (h1 : tidv.truthy = true) (h2 : tgtv.truthy = true)
    (h3 : pgv.truthy = true) (h4 : bidv.truthy = true) :
    window_row account region
        (mkFullChainClient nm sc tz tidv tgtv arnv opv pgv bidv bname osv ps vs cs delayv)
        (.obj [("WindowId", widv)])
      = .ok ([.s account, .s region, widv, nm, sc, tz, tidv, pgv, arnv, opv,
              bidv, bname, osv, .s (String.intercalate "," vs),
              .s (String.intercalate "," cs), delayv], 6) := by
  have e1 : get_maint_window_info
      (mkFullChainClient nm sc tz tidv tgtv arnv opv pgv bidv bname osv ps vs cs delayv) widv
      = .ok ({name := nm, sched := sc, time_zone := tz}, 1) := rfl
  have e2 : get_maint_window_task_1
      (mkFullChainClient nm sc tz tidv tgtv arnv opv pgv bidv bname osv ps vs cs delayv) widv
      = .ok (tidv, 1) := rfl
  have e3 : get_task_info
      (mkFullChainClient nm sc tz tidv tgtv arnv opv pgv bidv bname osv ps vs cs delayv) widv tidv
      = .ok ({target_id := tgtv, task := arnv, operation := opv}, 1) := by
    rw [get_task_info, h1]
    rfl
  have e4 : get_target_patch_tag
      (mkFullChainClient nm sc tz tidv tgtv arnv opv pgv bidv bname osv ps vs cs delayv) widv tgtv
      = .ok (pgv, 1) := by
    rw [get_target_patch_tag, h2]
    rfl
  have e5 : get_baseline_id
      (mkFullChainClient nm sc tz tidv tgtv arnv opv pgv bidv bname osv ps vs cs delayv) pgv
      = .ok (bidv, 1) := by
    rw [get_baseline_id, h3]
    rfl
  have e6 : get_baseline_info
      (mkFullChainClient nm sc tz tidv tgtv arnv opv pgv bidv bname osv ps vs cs delayv) bidv
      = .ok ({name := bname, operating_system := osv,
              filter_msrc_sev := .s (String.intercalate "," vs),
              filter_class := .s (String.intercalate "," cs),
              delay := delayv}, 1) := by
    rw [get_baseline_info, h4]
    show (joinComma (.arr (vs.map Val.s)) >>= fun fm =>
          joinComma (.arr (cs.map Val.s)) >>= fun fc =>
          Except.ok (({name := bname, operating_system := osv,
                       filter_msrc_sev := fm, filter_class := fc,
                       delay := delayv} : BaselineInfo), 1)) = _
    rw [joinComma_map_s, ok_bind, joinComma_map_s, ok_bind]
  simp only [window_row, e1, e2, e3, e4, e5, e6, ok_bind,
             show (Val.obj [("WindowId", widv)]).getKey "WindowId"
               = Except.ok widv from rfl]
  rfl

/-- C5 witness: a fully concrete chain; the filter fields come out as
the comma-joined values of the first rule and the second rule is
ignored. -/
theorem full_chain_baseline_filters_witness :
    window_row "123456789012" "eu-west-1"
        (mkFullChainClient (.s "mw-name") (.s "cron(0 2 ? * SUN *)") (.s "Etc/UTC")
          (.s "wt-01") (.s "tg-01") (.s "arn:aws:ssm:::document/AWS-RunPatchBaseline")
          (.s "Install") (.s "pg-web") (.s "pb-01") (.s "base-01") (.s "WINDOWS")
          ["WindowsServer2019"] ["Critical", "Important"] ["SecurityUpdates"] (.n 3))
        (.obj [("WindowId", .s "mw-01")])
      = .ok ([.s "123456789012", .s "eu-west-1", .s "mw-01", .s "mw-name",
              .s "cron(0 2 ? * SUN *)", .s "Etc/UTC", .s "wt-01", .s "pg-web",
              .s "arn:aws:ssm:::document/AWS-RunPatchBaseline", .s "Install",
              .s "pb-01", .s "base-01", .s "WINDOWS", .s "Critical,Important",
              .s "SecurityUpdates", .n 3], 6) :=
  full_chain_baseline_filters (.s "mw-name") (.s "cron(0 2 ? * SUN *)") (.s "Etc/UTC")
    (.s "wt-01") (.s "tg-01") (.s "arn:aws:ssm:::document/AWS-RunPatchBaseline")
    (.s "Install") (.s "pg-web") (.s "pb-01") (.s "base-01") (.s "WINDOWS") (.n 3)
    (.s "mw-01") ["WindowsServer2019"] ["Critical", "Important"] ["SecurityUpdates"]
    "123456789012" "eu-west-1" rfl rfl rfl rfl

/-- Lists produced by a successful effectful map have the length of the
input list. -/
theorem mapE_ok_length {α β : Type} :
    ∀ (l : List α) (f : α → Except PyErr β) (ys : List β),
      mapE l f = .ok ys → ys.length = l.length := by
  intro l f
  induction l with
  | nil =>
    intro ys h
    simp only [mapE] at h
    cases h
    rfl
  | cons a rest ih =>
    intro ys h
    simp only [mapE, bind, Except.bind] at h
    cases hfa : f a with
    | error e => rw [hfa] at h; cases h
    | ok bv =>
      rw [hfa] at h
      cases hrest : mapE rest f with
      | error e => rw [hrest] at h; cases h
      | ok bs =>
        rw [hrest] at h
        cases h
        simp [ih bs hrest]

/-- Every element of a successful effectful map is the image of some
input element. -/
theorem mapE_ok_mem {α β : Type} :
    ∀ (l : List α) (f : α → Except PyErr β) (ys : List β),
      mapE l f = .ok ys → ∀ y ∈ ys, ∃ a ∈ l, f a = .ok y := by
  intro l f
  induction l with
  | nil =>
    intro ys h
    simp only [mapE] at h
    cases h
    intro y hy
    cases hy
  | cons a rest ih =>
    intro ys h
    simp only [mapE, bind, Except.bind] at h
    cases hfa : f a with
    | error e => rw [hfa] at h; cases h
    | ok bv =>
      rw [hfa] at h
      cases hrest : mapE rest f with
      | error e => rw [hrest] at h; cases h
      | ok bs =>
        rw [hrest] at h
        cases h
        intro y hy
        rcases List.mem_cons.mp hy with hy | hy
        · exact ⟨a, List.mem_cons_self a rest, hy ▸ hfa⟩
        · rcases ih bs hrest y hy with ⟨x, hx, hfx⟩
          exact ⟨x, List.mem_cons_of_mem a hx, hfx⟩

/-- When every successful image has a length given pointwise by g, the
lengths of a successful effectful map are the map of g. -/
theorem mapE_ok_lengths {α β : Type} :
    ∀ (l : List α) (f : α → Except PyErr (List β)) (g : α → Nat),
      (∀ a ∈ l, ∀ zs, f a = .ok zs → zs.length = g a) →
      ∀ ys, mapE l f = .ok ys → ys.map List.length = l.map g := by
  intro l f g
  induction l with
  | nil =>
    intro _ ys h
    simp only [mapE] at h
    cases h
    rfl
  | cons a rest ih =>
    intro hg ys h
    simp only [mapE, bind, Except.bind] at h
    cases hfa : f a with
    | error e => rw [hfa] at h; cases h
    | ok bv =>
      rw [hfa] at h
      cases hrest : mapE rest f with
      | error e => rw [hrest] at h; cases h
      | ok bs =>
        rw [hrest] at h
        cases h
        have hbv := hg a (List.mem_cons_self a rest) bv hfa
        have hrec := ih (fun x hx => hg x (List.mem_cons_of_mem a hx)) bs hrest
        simp [hbv, hrec]

/-- Every successfully emitted patching row has the sixteen fields of
the patching header. -/
theorem window_row_ok_length (account region : String) (c : SSMClient)
    (mw : Val) (row : List Val) (n : Nat)
    (h : window_row account region c mw = .ok (row, n)) : row.length = 16 := by
  simp only [window_row, bind, Except.bind, pure, Except.pure] at h
  repeat' split at h
  all_goals first
    | exact (Except.noConfusion h)
    | (injection h with h1; injection h1 with h2 h3; subst h2; rfl)

/-- Every successfully emitted agent row has the ten fields of the
agent header. -/
theorem instance_row_ok_length (account region : String) (c : EC2SSMClient)
    (inst : Val) (row : List Val)
    (h : instance_row account region c inst = .ok row) : row.length = 10 := by
  simp only [instance_row, bind, Except.bind, pure, Except.pure] at h
  repeat' split at h
  all_goals first
    | exact (Except.noConfusion h)
    | (injection h with h1; subst h1; rfl)

/-- A reservation record wrapping a list of instance records, as
describe_instances returns them. -/
def mkReservation (is : List Val) : Val := .obj [("Instances", .arr is)]

/-- The number of instance records inside a reservation record. -/
def reservationInstanceCount (res : Val) : Nat :=
  match res.get? "Instances" with
  | some (.arr l) => l.length
  | _ => 0

/-- An EC2-region SSM client serving one fixed response. -/
def constEC2Client (resp : Val) : EC2SSMClient where
  describe_instance_information := fun _ => resp

/-- A successfully emitted patching row, viewed without its call count,
still has sixteen fields. -/
theorem window_row_only_ok_length (account region : String) (c : SSMClient)
    (mw : Val) (row : List Val)
    (h : window_row_only account region c mw = .ok row) : row.length = 16 := by
  unfold window_row_only at h
  cases hw : window_row account region c mw with
  | error e =>
    rw [hw] at h
    exact Except.noConfusion h
  | ok p =>
    rw [hw] at h
    have h2 : Except.ok p.1 = Except.ok row := h
    injection h2 with h1
    subst h1
    exact window_row_ok_length account region c mw p.1 p.2 (by rw [hw])

/-- The rows of one well-formed reservation are one per instance. -/
theorem reservation_rows_length (account region : String) (c : EC2SSMClient)
    (is : List Val) (zs : List (List Val))
    (h : reservation_rows account region c (mkReservation is) = .ok zs) :
    zs.length = is.length := by
  simp only [reservation_rows, bind, Except.bind,
    show (mkReservation is).getKey "Instances" = Except.ok (Val.arr is) from rfl,
    show (Val.arr is).asList = Except.ok is from rfl] at h
  exact mapE_ok_length is (instance_row account region c) zs h

/-- Every row of a reservation comes from some instance record. -/
theorem reservation_rows_mem (account region : String) (c : EC2SSMClient)
    (res : Val) (zs : List (List Val))
    (h : reservation_rows account region c res = .ok zs) :
    ∀ row ∈ zs, ∃ inst, instance_row account region c inst = .ok row := by
  simp only [reservation_rows, bind, Except.bind] at h
  repeat' split at h
  all_goals first
    | exact Except.noConfusion h
    | (intro row hrow
       rcases mapE_ok_mem _ _ _ h row hrow with ⟨inst, _, hi⟩
       exact ⟨inst, hi⟩)

/-- The region loop of the agent script over well-formed reservations
emits one row per instance, summed over the reservations. -/
theorem region_rows_agent_length (account region : String) (c : EC2SSMClient)
    (rss : List (List Val)) (out : List (List Val))
    (h : region_rows_agent account region c (rss.map mkReservation) = .ok out) :
    out.length = (rss.map List.length).sum := by
  simp only [region_rows_agent, bind, Except.bind, pure, Except.pure] at h
  cases hm : mapE (rss.map mkReservation) (reservation_rows account region c) with
  | error e =>
    rw [hm] at h
    exact Except.noConfusion h
  | ok rowss =>
    rw [hm] at h
    have h2 : Except.ok rowss.flatten = Except.ok out := h
    injection h2 with h1
    subst h1
    have hg : ∀ a ∈ rss.map mkReservation, ∀ zs,
        reservation_rows account region c a = .ok zs →
        zs.length = reservationInstanceCount a := by
      intro a ha zs hz
      rcases List.mem_map.mp ha with ⟨is, _, rfl⟩
      exact reservation_rows_length account region c is zs hz
    have hmap := mapE_ok_lengths (rss.map mkReservation)
      (reservation_rows account region c) reservationInstanceCount hg rowss hm
    rw [List.length_flatten, hmap, List.map_map]
    rfl

/-- Every row the region loop of the agent script emits comes from some
instance record. -/
theorem region_rows_agent_mem (account region : String) (c : EC2SSMClient)
    (resv : List Val) (out : List (List Val))
    (h : region_rows_agent account region c resv = .ok out) :
    ∀ row ∈ out, ∃ inst, instance_row account region c inst = .ok row := by
  simp only [region_rows_agent, bind, Except.bind, pure, Except.pure] at h
  cases hm : mapE resv (reservation_rows account region c) with
  | error e =>
    rw [hm] at h
    exact Except.noConfusion h
  | ok rowss =>
    rw [hm] at h
    have h2 : Except.ok rowss.flatten = Except.ok out := h
    injection h2 with h1
    subst h1
    intro row hrow
    rcases List.mem_flatten.mp hrow with ⟨zs, hzs, hr⟩
    rcases mapE_ok_mem resv _ rowss hm zs hzs with ⟨res, _, hres⟩
    exact reservation_rows_mem account region c res zs hres row hr

/-- C6: whenever a report of either script is produced, its first row
is the fixed header, it has exactly one further row per top-level
iterated item (per maintenance window for the patching audit, per
instance for the agent audit over well-formed reservations), every
emitted row has the arity of its header, rendering stringifies and
double-quotes every field of every row, and a fully mocked instance row
carries its ten fields in declared header order. -/
theorem csv_reports_header_and_rows
    (account : String) (regions : List String) (c : String → SSMClient)
    (lw : String → Val → List Val) (rss : String → List (List Val))
    (ssmc : String → EC2SSMClient) (rows1 rows2 : List (List Val))
    (hp : patching_report account regions c lw = .ok rows1)
    (ha : agent_report account regions
            (fun r _filters => (rss r).map mkReservation) ssmc = .ok rows2) :
      rows1.head? = some patching_header
    ∧ rows1.length
        = 1 + (regions.map (fun r => (patching_windows_iterated lw r).length)).sum
    ∧ (∀ row ∈ rows1.tail, row.length = 16)
    ∧ rows2.head? = some agent_header
    ∧ rows2.length
        = 1 + (regions.map (fun r => ((rss r).map List.length).sum)).sum
    ∧ (∀ row ∈ rows2.tail, row.length = 10)
    ∧ renderReport rows1 = rows1.map (fun fields =>
        String.intercalate "," (fields.map (fun v => quoteAll (pyStr v))))
    ∧ (∀ line ∈ renderReport rows2, ∃ qs : List String,
        line = String.intercalate "," qs
        ∧ ∀ q ∈ qs, ∃ t, q = "\"" ++ t ++ "\"")
    ∧ (∀ (iid nmv platv ping ver ptype pname pver : Val) (acct regn : String),
        instance_row acct regn
            (constEC2Client (.obj [("InstanceInformationList", .arr [.obj
              [("PingStatus", ping), ("AgentVersion", ver),
               ("PlatformType", ptype), ("PlatformName", pname),
               ("PlatformVersion", pver)]])]))
            (.obj [("InstanceId", iid),
                   ("Tags", .arr [.obj [("Key", .s "Name"), ("Value", nmv)]]),
                   ("Platform", platv)])
          = .ok [.s acct, .s regn, iid, nmv, platv, ping, ver, ptype,
                 pname, pver]) := by
  simp only [patching_report, bind, Except.bind, pure, Except.pure] at hp
  cases hm1 : mapE regions (fun r =>
      mapE (patching_windows_iterated lw r) (window_row_only account r (c r))) with
  | error e =>
    rw [hm1] at hp
    exact Except.noConfusion hp
  | ok rowss1 =>
  rw [hm1] at hp
  have hp2 : Except.ok (patching_header :: rowss1.flatten) = Except.ok rows1 := hp
  injection hp2 with hp3
  subst hp3
  simp only [agent_report, bind, Except.bind, pure, Except.pure] at ha
  cases hm2 : mapE regions (fun r =>
      region_rows_agent account r (ssmc r) ((rss r).map mkReservation)) with
  | error e =>
    rw [hm2] at ha
    exact Except.noConfusion ha
  | ok rowss2 =>
  rw [hm2] at ha
  have ha2 : Except.ok (agent_header :: rowss2.flatten) = Except.ok rows2 := ha
  injection ha2 with ha3
  subst ha3
  refine ⟨rfl, ?_, ?_, rfl, ?_, ?_, rfl, ?_, ?_⟩
  · have hmap := mapE_ok_lengths regions _
      (fun r => (patching_windows_iterated lw r).length)
      (fun r _ ys hy => mapE_ok_length _ _ _ hy) rowss1 hm1
    simp [List.length_flatten, hmap, Nat.add_comm]
  · intro row hrow
    rw [List.tail_cons] at hrow
    rcases List.mem_flatten.mp hrow with ⟨inner, hin, hr⟩
    rcases mapE_ok_mem regions _ rowss1 hm1 inner hin with ⟨r, _, hfr⟩
    rcases mapE_ok_mem _ _ inner hfr row hr with ⟨mw, _, hwr⟩
    exact window_row_only_ok_length account r (c r) mw row hwr
  · have hmap := mapE_ok_lengths regions _
      (fun r => ((rss r).map List.length).sum)
      (fun r _ ys hy => region_rows_agent_length account r (ssmc r) (rss r) ys hy)
      rowss2 hm2
    simp [List.length_flatten, hmap, Nat.add_comm]
  · intro row hrow
    rw [List.tail_cons] at hrow
    rcases List.mem_flatten.mp hrow with ⟨inner, hin, hr⟩
    rcases mapE_ok_mem regions _ rowss2 hm2 inner hin with ⟨r, _, hfr⟩
    rcases region_rows_agent_mem account r (ssmc r) _ inner hfr row hr with ⟨inst, hi⟩
    exact instance_row_ok_length account r (ssmc r) inst row hi
  · intro line hline
    rcases List.mem_map.mp hline with ⟨fields, _, rfl⟩
    refine ⟨fields.map (fun v => quoteAll (pyStr v)), rfl, ?_⟩
    intro q hq
    rcases List.mem_map.mp hq with ⟨v, _, rfl⟩
    exact ⟨(pyStr v).replace "\"" "\"\"", rfl⟩
  · intro iid nmv platv ping ver ptype pname pver acct regn
    rfl

/-- C6 witness: one region with no maintenance windows and no
reservations produces exactly the two header-only reports. -/
theorem csv_reports_header_and_rows_witness :
    (([patching_header] : List (List Val)).head? = some patching_header
    ∧ ([patching_header] : List (List Val)).length
        = 1 + ((["eu-west-1"].map (fun r =>
            (patching_windows_iterated (fun _ _ => []) r).length)).sum)
    ∧ (∀ row ∈ ([patching_header] : List (List Val)).tail, row.length = 16)
    ∧ ([agent_header] : List (List Val)).head? = some agent_header
    ∧ ([agent_header] : List (List Val)).length
        = 1 + ((["eu-west-1"].map (fun _ =>
            (([] : List (List Val)).map List.length).sum)).sum)
    ∧ (∀ row ∈ ([agent_header] : List (List Val)).tail, row.length = 10)
    ∧ renderReport [patching_header] = [patching_header].map (fun fields =>
        String.intercalate "," (fields.map (fun v => quoteAll (pyStr v))))
    ∧ (∀ line ∈ renderReport [agent_header], ∃ qs : List String,
        line = String.intercalate "," qs
        ∧ ∀ q ∈ qs, ∃ t, q = "\"" ++ t ++ "\"")
    ∧ (∀ (iid nmv platv ping ver ptype pname pver : Val) (acct regn : String),
        instance_row acct regn
            (constEC2Client (.obj [("InstanceInformationList", .arr [.obj
              [("PingStatus", ping), ("AgentVersion", ver),
               ("PlatformType", ptype), ("PlatformName", pname),
               ("PlatformVersion", pver)]])]))
            (.obj [("InstanceId", iid),
                   ("Tags", .arr [.obj [("Key", .s "Name"), ("Value", nmv)]]),
                   ("Platform", platv)])
          = .ok [.s acct, .s regn, iid, nmv, platv, ping, ver, ptype,
                 pname, pver])) :=
  csv_reports_header_and_rows "123456789012" ["eu-west-1"]
    (fun _ => constSSMClient junkResp junkResp junkResp junkResp junkResp junkResp)
    (fun _ _ => []) (fun _ => []) (fun _ => constEC2Client junkResp)
    [patching_header] [agent_header] rfl rfl

end AwsReports
